import Mathlib

/-!
Shallow embedding of tbcontrol/blocksim.py: block-diagram simulation with
LTI blocks, controllers, deadtime, discrete transfer functions, and the
diagram step/simulate loop.  Values are modelled as rationals; the Python
signal dict is modelled as an insertion-ordered association list.
-/

namespace Blocksim

/-- Python errors that the module can raise. -/
inductive PyError
  | typeError (msg : String)
  | valueError (msg : String)
  | indexError (msg : String)
  deriving DecidableEq

/-- The Python signal dict: insertion-ordered association list from signal
name to current value. -/
abbrev Table := List (String × ℚ)

/-- Dict lookup: first (and only) binding of the key, none models KeyError. -/
def Table.get? : Table → String → Option ℚ
  | [], _ => none
  | (k, v) :: rest, key => if k = key then some v else Table.get? rest key

/-- Dict assignment: an existing key keeps its position, a new key is
appended at the end, as in a Python dict. -/
def Table.set : Table → String → ℚ → Table
  | [], key, v => [(key, v)]
  | (k, w) :: rest, key, v =>
    if k = key then (key, v) :: rest else (k, w) :: Table.set rest key v

/-- A block state value: Python stores either a scalar or a numpy column
vector in `self.state`. -/
inductive StVal
  | scalar (q : ℚ)
  | vec (v : List ℚ)
  deriving DecidableEq

/-- View a state value as a vector (used where numpy would treat the stored
column vector as such). -/
def StVal.toVec : StVal → List ℚ
  | .scalar q => [q]
  | .vec v => v

def vecAdd (a b : List ℚ) : List ℚ := List.zipWith (· + ·) a b

def vecScale (v : List ℚ) (c : ℚ) : List ℚ := v.map (· * c)

/-- Inner product of two coefficient vectors (numpy.inner / dot on 1-D). -/
def dot (a b : List ℚ) : ℚ := (List.zipWith (· * ·) a b).sum

def matVec (A : List (List ℚ)) (x : List ℚ) : List ℚ := A.map (fun row => dot row x)

/-- numpy broadcasting addition on state values. -/
def StVal.add : StVal → StVal → StVal
  | .scalar a, .scalar b => .scalar (a + b)
  | .vec a, .vec b => .vec (vecAdd a b)
  | .scalar a, .vec b => .vec (b.map (fun q => a + q))
  | .vec a, .scalar b => .vec (a.map (fun q => q + b))

/-- Multiplication of a state value by a scalar (derivative times dt). -/
def StVal.smul : StVal → ℚ → StVal
  | .scalar q, c => .scalar (q * c)
  | .vec v, c => .vec (vecScale v c)

/-- Modelled from the spec: the interpolation primitive (numpy.interp, an
external collaborator of the repository) - one-dimensional linear
interpolation of the sample values at the query time, clamping to the first
and last sample value outside the sampled range. -/
def interp (x : ℚ) : List ℚ → List ℚ → ℚ
  | [], _ => 0
  | _ :: _, [] => 0
  | [_], y0 :: _ => y0
  | x0 :: x1 :: xrest, y0 :: yrest =>
    if x ≤ x0 then y0
    else if x ≤ x1 then
      y0 + (yrest.headD 0 - y0) * (x - x0) / (x1 - x0)
    else interp x (x1 :: xrest) yrest

/-- State of a Deadtime block (class Deadtime): fixed delay plus the
growing history of sample times and values. -/
structure DeadtimeState where
  delay : ℚ
  x : StVal
  y : ℚ
  output : ℚ
  ts : List ℚ
  us : List ℚ
  deriving DecidableEq

/-- Deadtime.change_state: assigns the argument to x and state. -/
def DeadtimeState.change_state (d : DeadtimeState) (v : StVal) : DeadtimeState :=
  { d with x := v }

/-- Deadtime.reset: zero state and output, history restarted with the
synthetic sample (0, 0). -/
def DeadtimeState.reset (d : DeadtimeState) : DeadtimeState :=
  { d with x := .scalar 0, y := 0, output := 0, ts := [0], us := [0] }

/-- Deadtime.change_input: append (t, u) to the history; if delay > 0 the
output is the history interpolated at t - delay, otherwise u itself. -/
def DeadtimeState.change_input (d : DeadtimeState) (t u : ℚ) : ℚ × DeadtimeState :=
  let ts := d.ts ++ [t]
  let us := d.us ++ [u]
  let y := if d.delay > 0 then interp (t - d.delay) ts us else u
  (y, { d with ts := ts, us := us, y := y, output := y })

/-- Deadtime.derivative: always zero. -/
def DeadtimeState.derivative (_ : DeadtimeState) (_ : ℚ) : StVal := .scalar 0

/-- A state-space realization (A, B, C, D) as returned by the external
realization adapter (scipy.signal.lti(...).to_ss()): A is n x n, B a column
of length n, C a row of length n, D a scalar. -/
structure Realization where
  A : List (List ℚ)
  B : List ℚ
  C : List ℚ
  D : ℚ
  deriving DecidableEq

/-- State of an LTI block: the transfer-function coefficients, the
realization, the optional owned Deadtime sub-block, the continuous state
x and current output. -/
structure LTIState where
  numerator : List ℚ
  denominator : List ℚ
  Gss : Realization
  delay : Option DeadtimeState
  x : StVal
  y : ℚ
  output : ℚ
  deriving DecidableEq

/-- LTI.change_state: assigns the argument to x and state. -/
def LTIState.change_state (s : LTIState) (v : StVal) : LTIState :=
  { s with x := v }

/-- LTI.reset: state vector zeroed to the realization order (numpy.zeros of
A.shape[0] rows), output zeroed, owned delay sub-block reset. -/
def LTIState.reset (s : LTIState) : LTIState :=
  { s with x := .vec (List.replicate s.Gss.A.length 0),
           y := 0, output := 0,
           delay := s.delay.map DeadtimeState.reset }

/-- LTI.__init__: store the realization of the coefficients, own a Deadtime
sub-block when delay > 0, then reset.  The realization adapter is an
external collaborator passed in as a function. -/
def LTIState.init (realize : List ℚ → List ℚ → Realization)
    (numerator denominator : List ℚ) (delay : ℚ) : LTIState :=
  LTIState.reset
    { numerator := numerator, denominator := denominator,
      Gss := realize numerator denominator,
      delay := if delay > 0 then
          some { delay := delay, x := .scalar 0, y := 0, output := 0, ts := [0], us := [0] }
        else none,
      x := .scalar 0, y := 0, output := 0 }

/-- LTI.change_input: y = C.dot(x) + D.dot(u); if a delay sub-block exists
the raw output is passed through it before being stored and returned. -/
def LTIState.change_input (s : LTIState) (t u : ℚ) : ℚ × LTIState :=
  let y0 := dot s.Gss.C s.x.toVec + s.Gss.D * u
  match s.delay with
  | none => (y0, { s with y := y0, output := y0 })
  | some dl =>
    let r := dl.change_input t y0
    (r.1, { s with y := r.1, output := r.1, delay := some r.2 })

/-- LTI.derivative: A.dot(x) + B.dot(e). -/
def LTIState.derivative (s : LTIState) (e : ℚ) : StVal :=
  .vec (vecAdd (matVec s.Gss.A s.x.toVec) (vecScale s.Gss.B e))

/-- State of a Controller: an LTI plus the automatic flag. -/
structure CtrlState where
  lti : LTIState
  automatic : Bool
  deriving DecidableEq

/-- Controller.__init__: sets self.automatic = True (the constructor
parameter automatic is accepted but never read), then LTI.__init__. -/
def CtrlState.init (realize : List ℚ → List ℚ → Realization)
    (numerator denominator : List ℚ) (delay : ℚ) (automatic : Bool) : CtrlState :=
  { automatic := true, lti := LTIState.init realize numerator denominator delay }

/-- Controller.change_input: LTI behaviour when automatic, otherwise the
held output is returned and nothing changes. -/
def CtrlState.change_input (c : CtrlState) (t u : ℚ) : ℚ × CtrlState :=
  if c.automatic then
    let r := c.lti.change_input t u
    (r.1, { c with lti := r.2 })
  else
    (c.lti.output, c)

/-- PI.__init__: Controller with numerator [Kc tau_i, Kc] and denominator
[tau_i, 0] (delay and automatic left at their defaults 0 and True). -/
def PIinit (realize : List ℚ → List ℚ → Realization) (Kc tau_i : ℚ) : CtrlState :=
  CtrlState.init realize [Kc * tau_i, Kc] [tau_i, 0] 0 true

/-- PID.__init__: when tau_d = 0 the code executes return PI(...) inside
the constructor body; a Python constructor returning a value other than
None makes instantiation raise TypeError, so construction fails.  For
tau_d different from 0 it builds the ISA PID-with-filter coefficients. -/
def PIDinit (realize : List ℚ → List ℚ → Realization)
    (Kc tau_i tau_d alpha_f : ℚ) : Except PyError CtrlState :=
  if tau_d = 0 then
    .error (.typeError "PID constructor returned a PI instance instead of None")
  else
    .ok (CtrlState.init realize
      [Kc * alpha_f * tau_d * tau_i + Kc * tau_d * tau_i,
       Kc * alpha_f * tau_d + Kc * tau_i,
       Kc]
      [alpha_f * tau_d * tau_i, tau_i, 0] 0 true)

/-- State of an AlgebraicEquation block: the external function f(t,u) plus
the (dynamically irrelevant) state and output fields. -/
structure AlgState where
  f : ℚ → ℚ → ℚ
  x : StVal
  y : ℚ
  output : ℚ

/-- AlgebraicEquation.change_input: output = f(t, u). -/
def AlgState.change_input (s : AlgState) (t u : ℚ) : ℚ × AlgState :=
  let y := s.f t u
  (y, { s with y := y, output := y })

/-- AlgebraicEquation.reset. -/
def AlgState.reset (s : AlgState) : AlgState :=
  { s with x := .scalar 0, y := 0, output := 0 }

/-- State of a DiscreteTF block: sampling interval, reversed denominator
and numerator coefficients, the output and input ring buffers, the next
sampling instant and the held output. -/
structure DTFState where
  dt : ℚ
  y_cos : List ℚ
  u_cos : List ℚ
  ys : List ℚ
  us : List ℚ
  next_sample : ℚ
  state : ℚ
  output : ℚ
  deriving DecidableEq

/-- DiscreteTF.__init__: rejects a zero leading denominator coefficient,
stores the coefficient vectors reversed and zeroes the ring buffers. -/
def DTFState.init (dt : ℚ) (numerator denominator : List ℚ) :
    Except PyError DTFState :=
  match denominator with
  | [] => .error (.indexError "list index out of range")
  | a0 :: _ =>
    if a0 = 0 then
      .error (.valueError "The leading coefficient of the denominator cannot be zero")
    else
      .ok { dt := dt, y_cos := denominator.reverse, u_cos := numerator.reverse,
            ys := List.replicate denominator.length 0,
            us := List.replicate numerator.length 0,
            next_sample := 0, state := 0, output := 0 }

/-- DiscreteTF.reset. -/
def DTFState.reset (s : DTFState) : DTFState :=
  { s with ys := List.replicate s.y_cos.length 0,
           us := List.replicate s.u_cos.length 0,
           next_sample := 0, state := 0, output := 0 }

/-- DiscreteTF.change_input: when t is strictly past next_sample, advance
next_sample by dt, shift both ring buffers (drop oldest, append newest) and
solve the difference equation for the new output; otherwise return the held
output unchanged. -/
def DTFState.change_input (s : DTFState) (t u : ℚ) : ℚ × DTFState :=
  if t > s.next_sample then
    let us := s.us.drop 1 ++ [u]
    let ysOld := s.ys.drop 1
    let u_sum := dot s.u_cos us
    let y_sum := dot s.y_cos.dropLast ysOld
    let y := (u_sum - y_sum) / s.y_cos.getLastD 0
    (y, { s with next_sample := s.next_sample + s.dt,
                 us := us, ys := ysOld ++ [y], output := y })
  else
    (s.output, s)

/-- The closed set of block variants satisfying the Block contract. -/
inductive BlockKind
  | lti (s : LTIState)
  | controller (c : CtrlState)
  | zero
  | algebraic (s : AlgState)
  | deadtime (d : DeadtimeState)
  | discretetf (s : DTFState)

/-- A block: its name, input signal name, output signal name, and variant
state. -/
structure Block where
  name : String
  inputname : String
  outputname : String
  kind : BlockKind

/-- The state attribute read by Diagram.step before integrating. -/
def Block.state : Block → StVal
  | { kind := .lti s, .. } => s.x
  | { kind := .controller c, .. } => c.lti.x
  | { kind := .zero, .. } => .scalar 0
  | { kind := .algebraic s, .. } => s.x
  | { kind := .deadtime d, .. } => d.x
  | { kind := .discretetf s, .. } => .scalar s.state

/-- Dispatch of change_input over the block variants. -/
def Block.change_input (b : Block) (t u : ℚ) : ℚ × Block :=
  match b.kind with
  | .lti s => let r := s.change_input t u; (r.1, { b with kind := .lti r.2 })
  | .controller c => let r := c.change_input t u; (r.1, { b with kind := .controller r.2 })
  | .zero => (0, b)
  | .algebraic s => let r := s.change_input t u; (r.1, { b with kind := .algebraic r.2 })
  | .deadtime d => let r := d.change_input t u; (r.1, { b with kind := .deadtime r.2 })
  | .discretetf s => let r := s.change_input t u; (r.1, { b with kind := .discretetf r.2 })

/-- Dispatch of change_state: Zero pins its state to 0 and DiscreteTF
ignores the assignment altogether. -/
def Block.change_state (b : Block) (v : StVal) : Block :=
  match b.kind with
  | .lti s => { b with kind := .lti (s.change_state v) }
  | .controller c => { b with kind := .controller { c with lti := c.lti.change_state v } }
  | .zero => b
  | .algebraic s => { b with kind := .algebraic { s with x := v } }
  | .deadtime d => { b with kind := .deadtime (d.change_state v) }
  | .discretetf _ => b

/-- Dispatch of derivative: only LTI (and Controller, which inherits it)
has continuous dynamics. -/
def Block.derivative (b : Block) (e : ℚ) : StVal :=
  match b.kind with
  | .lti s => s.derivative e
  | .controller c => c.lti.derivative e
  | .zero => .scalar 0
  | .algebraic _ => .scalar 0
  | .deadtime _ => .scalar 0
  | .discretetf _ => .scalar 0

/-- Dispatch of reset. -/
def Block.reset (b : Block) : Block :=
  match b.kind with
  | .lti s => { b with kind := .lti s.reset }
  | .controller c => { b with kind := .controller { c with lti := c.lti.reset } }
  | .zero => b
  | .algebraic s => { b with kind := .algebraic s.reset }
  | .deadtime d => { b with kind := .deadtime d.reset }
  | .discretetf s => { b with kind := .discretetf s.reset }

/-- A diagram: ordered blocks, summing junctions in definition order,
external inputs, and the live signal table. -/
structure Diagram where
  blocks : List Block
  sums : List (String × List String)
  inputs : List (String × (ℚ → ℚ))
  signals : Table

/-- Diagram.reset: rebuild the signal table with an entry for every block
input name, every block output name and every sum output, all zero, and
reset every block. -/
def Diagram.reset (d : Diagram) : Diagram :=
  let sig1 := d.blocks.foldl (fun tb b => Table.set tb b.inputname 0) []
  let sig2 := d.blocks.foldl (fun tb b => Table.set tb b.outputname 0) sig1
  let sig3 := d.sums.foldl (fun tb p => Table.set tb p.1 0) sig2
  { d with signals := sig3, blocks := d.blocks.map Block.reset }

/-- Phase 1 of Diagram.step: evaluate every external input at t and store
it into the table. -/
def evalInputs (inputs : List (String × (ℚ → ℚ))) (t : ℚ) (tbl : Table) : Table :=
  inputs.foldl (fun tb p => Table.set tb p.1 (p.2 t)) tbl

/-- One signed term of a summing junction: sign from the first character
(none models the ValueError of int on a signless term, and an empty term
fails like the IndexError of indexing it), value looked up under the rest
of the term (none models the KeyError of a dangling name). -/
def termVal (tbl : Table) (s : String) : Option ℚ := do
  let c ← s.data.head?
  let sign ← if c = '+' then some (1 : ℚ) else if c = '-' then some (-1 : ℚ) else none
  let v ← Table.get? tbl (String.mk (s.data.drop 1))
  pure (sign * v)

/-- The signed sum of a junction, evaluated left to right. -/
def sumVal (tbl : Table) (terms : List String) : Option ℚ :=
  terms.foldlM (fun acc s => (termVal tbl s).map (fun v => acc + v)) 0

/-- Phase 2 of Diagram.step: evaluate the summing junctions in definition
order, each one reading whatever currently occupies the table. -/
def evalSums (sums : List (String × List String)) (tbl : Table) : Option Table :=
  sums.foldlM (fun tb p => (sumVal tb p.2).map (Table.set tb p.1)) tbl

/-- Phase 3 of Diagram.step as the code performs it, for each block in list
order: read u from the table, store change_input(t,u) under the output
name, then change_state to state + derivative(u) dt, both read back from
the block object change_input just returned. -/
def evalBlocks (t dt : ℚ) : List Block → Table → Option (Table × List Block)
  | [], tbl => some (tbl, [])
  | b :: rest, tbl =>
    match Table.get? tbl b.inputname with
    | none => none
    | some u =>
      let r := b.change_input t u
      let b2 := r.2.change_state (r.2.state.add ((r.2.derivative u).smul dt))
      match evalBlocks t dt rest (Table.set tbl b.outputname r.1) with
      | none => none
      | some rr => some (rr.1, b2 :: rr.2)

/-- Diagram.step: inputs, then sums, then blocks. -/
def Diagram.step (d : Diagram) (t dt : ℚ) : Option Diagram :=
  match evalSums d.sums (evalInputs d.inputs t d.signals) with
  | none => none
  | some tbl2 =>
    match evalBlocks t dt d.blocks tbl2 with
    | none => none
    | some r => some { d with signals := r.1, blocks := r.2 }

/-- The recorded output series: signal name to the list of its values. -/
abbrev Outputs := List (String × List ℚ)

/-- Append one value to a signal series (defaultdict(list) behaviour). -/
def Outputs.push : Outputs → String → ℚ → Outputs
  | [], key, v => [(key, [v])]
  | (k, vs) :: rest, key, v =>
    if k = key then (k, vs ++ [v]) :: rest else (k, vs) :: Outputs.push rest key v

/-- Record every entry of the freshly stepped signal table. -/
def recordOutputs (outs : Outputs) (sig : Table) : Outputs :=
  sig.foldl (fun o p => Outputs.push o p.1 p.2) outs

/-- The simulate loop: step at every timestamp with the fixed dt, recording
the whole signal table after each tick. -/
def simLoop (dt : ℚ) : Diagram → Outputs → List ℚ → Option (Outputs × Diagram)
  | d, outs, [] => some (outs, d)
  | d, outs, t :: rest =>
    match d.step t dt with
    | none => none
    | some d1 => simLoop dt d1 (recordOutputs outs d1.signals) rest

/-- Diagram.simulate: dt is read from index 1 of the timestamp sequence
(IndexError when it is too short), the diagram is reset, and the loop runs
over every timestamp with that fixed dt. -/
def Diagram.simulate (d : Diagram) (ts : List ℚ) : Option (Outputs × Diagram) :=
  match ts[1]? with
  | none => none
  | some dt => simLoop dt d.reset [] ts

/-- Phase 3 of the step as the spec words it: for each block in list order,
read u, store change_input(t, u) under the output name, then replace the
state by old_state + derivative(u) dt where both the state and the
derivative are those of the block before change_input was called. -/
def evalBlocksSpec (t dt : ℚ) : List Block → Table → Option (Table × List Block)
  | [], tbl => some (tbl, [])
  | b :: rest, tbl =>
    match Table.get? tbl b.inputname with
    | none => none
    | some u =>
      let r := b.change_input t u
      let b2 := r.2.change_state (b.state.add ((b.derivative u).smul dt))
      match evalBlocksSpec t dt rest (Table.set tbl b.outputname r.1) with
      | none => none
      | some rr => some (rr.1, b2 :: rr.2)

/-- A single tick as the spec words it: external inputs first, then summing
junctions in definition order over the current table, then the blocks in
list order with pre-update state fed to the integrator. -/
def Diagram.stepSpec (d : Diagram) (t dt : ℚ) : Option Diagram :=
  match evalSums d.sums (evalInputs d.inputs t d.signals) with
  | none => none
  | some tbl2 =>
    match evalBlocksSpec t dt d.blocks tbl2 with
    | none => none
    | some r => some { d with signals := r.1, blocks := r.2 }

/-- DiscreteTF.change_input as claim C3 words it: the block updates as soon
as t has reached next_sample (that is, t is greater than or equal to it),
and holds the previous output otherwise. -/
def DTFState.change_input_claim (s : DTFState) (t u : ℚ) : ℚ × DTFState :=
  if t ≥ s.next_sample then
    let us := s.us.drop 1 ++ [u]
    let ysOld := s.ys.drop 1
    let u_sum := dot s.u_cos us
    let y_sum := dot s.y_cos.dropLast ysOld
    let y := (u_sum - y_sum) / s.y_cos.getLastD 0
    (y, { s with next_sample := s.next_sample + s.dt,
                 us := us, ys := ysOld ++ [y], output := y })
  else
    (s.output, s)

/-- An element of the blocks argument of Diagram, before the isinstance
check: either an actual Block or some other Python value. -/
inductive PyVal
  | block (b : Block)
  | other (tag : String)

/-- Whether a Python value passes isinstance(value, Block). -/
def PyVal.isBlock : PyVal → Bool
  | .block _ => true
  | .other _ => false

def PyVal.toBlock? : PyVal → Option Block
  | .block b => some b
  | .other _ => none

/-- Whether one signed term passes the sign check of the constructor. -/
def signedTerm (s : String) : Bool :=
  match s.data with
  | [] => false
  | c :: _ => c = '+' || c = '-'

/-- The error message of the constructor for a signless term. -/
def noSignMsg (output s : String) : String :=
  "In the sum " ++ output ++ " there is no sign for " ++ s

/-- The error raised for one term: indexing an empty term raises
IndexError, a signless nonempty term raises the descriptive ValueError. -/
def termError (output s : String) : Option PyError :=
  match s.data with
  | [] => some (.indexError "string index out of range")
  | c :: _ =>
    if c = '+' || c = '-' then none else some (.valueError (noSignMsg output s))

/-- Scan the terms of one junction in order for the first bad term. -/
def junctionError (output : String) : List String → Option PyError
  | [] => none
  | s :: rest =>
    match termError output s with
    | some e => some e
    | none => junctionError output rest

/-- Scan the junctions in definition order for the first bad term. -/
def sumsError : List (String × List String) → Option PyError
  | [] => none
  | (output, terms) :: rest =>
    match junctionError output terms with
    | some e => some e
    | none => sumsError rest

/-- Diagram.__init__: every element of blocks must be a Block (TypeError
otherwise), every term of every junction must carry a sign (checked in
order, after the blocks check), and nothing else is validated; on success
the diagram is stored and reset. -/
def Diagram.construct (blocks : List PyVal) (sums : List (String × List String))
    (inputs : List (String × (ℚ → ℚ))) : Except PyError Diagram :=
  if blocks.all PyVal.isBlock then
    match sumsError sums with
    | some e => .error e
    | none =>
      .ok (Diagram.reset
        { blocks := blocks.filterMap PyVal.toBlock?, sums := sums,
          inputs := inputs, signals := [] })
  else
    .error (.typeError "blocks must be a list of blocks")

/-! Helper lemmas about the block contract. -/

/-- change_input never mutates the integrated state attribute. -/
theorem Block.state_change_input (b : Block) (t u : ℚ) :
    (b.change_input t u).2.state = b.state := by
  obtain ⟨n, i, o, k⟩ := b
  cases k with
  | lti s =>
    obtain ⟨nu, de, g, dl, x, y, op⟩ := s
    cases dl <;> rfl
  | controller c =>
    obtain ⟨s, a⟩ := c
    obtain ⟨nu, de, g, dl, x, y, op⟩ := s
    cases a <;> cases dl <;> rfl
  | zero => rfl
  | algebraic s => rfl
  | deadtime d => rfl
  | discretetf s =>
    simp only [Block.change_input, DTFState.change_input, Block.state]
    split <;> rfl

/-- change_input never changes what derivative computes. -/
theorem Block.derivative_change_input (b : Block) (t u e : ℚ) :
    (b.change_input t u).2.derivative e = b.derivative e := by
  obtain ⟨n, i, o, k⟩ := b
  cases k with
  | lti s =>
    obtain ⟨nu, de, g, dl, x, y, op⟩ := s
    cases dl <;> rfl
  | controller c =>
    obtain ⟨s, a⟩ := c
    obtain ⟨nu, de, g, dl, x, y, op⟩ := s
    cases a <;> cases dl <;> rfl
  | zero => rfl
  | algebraic s => rfl
  | deadtime d => rfl
  | discretetf s => rfl

/-- Resetting after change_input gives the same block as resetting before. -/
theorem Block.reset_change_input (b : Block) (t u : ℚ) :
    (b.change_input t u).2.reset = b.reset := by
  obtain ⟨n, i, o, k⟩ := b
  cases k with
  | lti s =>
    obtain ⟨nu, de, g, dl, x, y, op⟩ := s
    cases dl with
    | none => rfl
    | some dd => obtain ⟨dly, dx, dy, dop, dts, dus⟩ := dd; rfl
  | controller c =>
    obtain ⟨s, a⟩ := c
    obtain ⟨nu, de, g, dl, x, y, op⟩ := s
    cases a with
    | false => rfl
    | true =>
      cases dl with
      | none => rfl
      | some dd => obtain ⟨dly, dx, dy, dop, dts, dus⟩ := dd; rfl
  | zero => rfl
  | algebraic s => rfl
  | deadtime d => obtain ⟨dly, dx, dy, dop, dts, dus⟩ := d; rfl
  | discretetf s =>
    obtain ⟨sdt, yc, uc, ys, us, ns, st, op⟩ := s
    simp only [Block.change_input, DTFState.change_input, Block.reset]
    split <;> rfl

/-- Resetting after change_state gives the same block as resetting before. -/
theorem Block.reset_change_state (b : Block) (v : StVal) :
    (b.change_state v).reset = b.reset := by
  obtain ⟨n, i, o, k⟩ := b
  cases k with
  | lti s => obtain ⟨nu, de, g, dl, x, y, op⟩ := s; rfl
  | controller c =>
    obtain ⟨s, a⟩ := c
    obtain ⟨nu, de, g, dl, x, y, op⟩ := s
    rfl
  | zero => rfl
  | algebraic s => rfl
  | deadtime d => obtain ⟨dly, dx, dy, dop, dts, dus⟩ := d; rfl
  | discretetf s => rfl

/-- Block reset is idempotent. -/
theorem Block.reset_reset (b : Block) : b.reset.reset = b.reset := by
  obtain ⟨n, i, o, k⟩ := b
  cases k with
  | lti s =>
    obtain ⟨nu, de, g, dl, x, y, op⟩ := s
    cases dl with
    | none => rfl
    | some dd => obtain ⟨dly, dx, dy, dop, dts, dus⟩ := dd; rfl
  | controller c =>
    obtain ⟨s, a⟩ := c
    obtain ⟨nu, de, g, dl, x, y, op⟩ := s
    cases dl with
    | none => rfl
    | some dd => obtain ⟨dly, dx, dy, dop, dts, dus⟩ := dd; rfl
  | zero => rfl
  | algebraic s => rfl
  | deadtime d => obtain ⟨dly, dx, dy, dop, dts, dus⟩ := d; rfl
  | discretetf s => rfl

/-- Reset keeps the wiring names. -/
theorem Block.reset_inputname (b : Block) : b.reset.inputname = b.inputname := by
  obtain ⟨n, i, o, k⟩ := b; cases k <;> rfl

theorem Block.reset_outputname (b : Block) : b.reset.outputname = b.outputname := by
  obtain ⟨n, i, o, k⟩ := b; cases k <;> rfl

/-- The code and spec formulations of the block phase agree: change_input
touches neither the integrated state nor what derivative computes, so
reading them from the block after change_input equals reading them from the
block before it. -/
theorem evalBlocks_eq_spec (t dt : ℚ) : ∀ (bs : List Block) (tbl : Table),
    evalBlocks t dt bs tbl = evalBlocksSpec t dt bs tbl := by
  intro bs
  induction bs with
  | nil => intro tbl; rfl
  | cons b rest ih =>
    intro tbl
    simp only [evalBlocks, evalBlocksSpec, Block.state_change_input,
      Block.derivative_change_input, ih]

/-- The block phase maps every block to one with the same reset. -/
theorem evalBlocks_resets (t dt : ℚ) : ∀ (bs : List Block) (tbl : Table)
    (r : Table × List Block), evalBlocks t dt bs tbl = some r →
    r.2.map Block.reset = bs.map Block.reset := by
  intro bs
  induction bs with
  | nil =>
    intro tbl r h
    simp only [evalBlocks, Option.some.injEq] at h
    rw [← h]
  | cons b rest ih =>
    intro tbl r h
    simp only [evalBlocks] at h
    cases hu : Table.get? tbl b.inputname with
    | none => simp only [hu] at h; exact absurd h (by simp)
    | some u =>
      simp only [hu] at h
      cases hr : evalBlocks t dt rest (Table.set tbl b.outputname (b.change_input t u).1) with
      | none => simp only [hr] at h; exact absurd h (by simp)
      | some rr =>
        simp only [hr, Option.some.injEq] at h
        rw [← h]
        simp only [List.map_cons, Block.reset_change_state, Block.reset_change_input,
          ih _ _ hr]

/-- The signal-table rebuild only depends on the listed names. -/
theorem foldl_set_names (g : Block → String) : ∀ (l : List Block) (init : Table),
    l.foldl (fun tb b => Table.set tb (g b) 0) init
      = (l.map g).foldl (fun tb nm => Table.set tb nm 0) init := by
  intro l
  induction l with
  | nil => intro init; rfl
  | cons b rest ih => intro init; simp only [List.foldl_cons, List.map_cons, ih]

/-- Two diagrams whose blocks reset identically and that share sums and
inputs reset identically. -/
theorem Diagram.reset_congr (d1 d2 : Diagram)
    (hb : d1.blocks.map Block.reset = d2.blocks.map Block.reset)
    (hs : d1.sums = d2.sums) (hi : d1.inputs = d2.inputs) :
    d1.reset = d2.reset := by
  have hin : d1.blocks.map Block.inputname = d2.blocks.map Block.inputname := by
    have h := congrArg (List.map Block.inputname) hb
    simpa only [List.map_map, Function.comp_def, Block.reset_inputname] using h
  have hout : d1.blocks.map Block.outputname = d2.blocks.map Block.outputname := by
    have h := congrArg (List.map Block.outputname) hb
    simpa only [List.map_map, Function.comp_def, Block.reset_outputname] using h
  unfold Diagram.reset
  simp only [foldl_set_names Block.inputname, foldl_set_names Block.outputname,
    hin, hout, hb, hs, hi]

/-- Diagram reset is idempotent. -/
theorem Diagram.reset_idem (d : Diagram) : d.reset.reset = d.reset := by
  have hb : d.reset.blocks.map Block.reset = d.blocks.map Block.reset := by
    show (d.blocks.map Block.reset).map Block.reset = d.blocks.map Block.reset
    simp only [List.map_map, Function.comp_def, Block.reset_reset]
  exact Diagram.reset_congr d.reset d hb rfl rfl

/-- A successful step leaves the reset of the diagram unchanged. -/
theorem Diagram.step_reset (d d1 : Diagram) (t dt : ℚ) (h : d.step t dt = some d1) :
    d1.reset = d.reset := by
  unfold Diagram.step at h
  cases h2 : evalSums d.sums (evalInputs d.inputs t d.signals) with
  | none => simp only [h2] at h; exact absurd h (by simp)
  | some tbl2 =>
    simp only [h2] at h
    cases h3 : evalBlocks t dt d.blocks tbl2 with
    | none => simp only [h3] at h; exact absurd h (by simp)
    | some r =>
      simp only [h3, Option.some.injEq] at h
      have hb : d1.blocks.map Block.reset = d.blocks.map Block.reset := by
        rw [← h]; exact evalBlocks_resets t dt d.blocks tbl2 r h3
      have hs : d1.sums = d.sums := by rw [← h]
      have hi : d1.inputs = d.inputs := by rw [← h]
      exact Diagram.reset_congr d1 d hb hs hi

/-- The simulation loop leaves the reset of the diagram unchanged. -/
theorem simLoop_reset (dt : ℚ) : ∀ (ts : List ℚ) (d : Diagram) (outs : Outputs)
    (r : Outputs × Diagram), simLoop dt d outs ts = some r → r.2.reset = d.reset := by
  intro ts
  induction ts with
  | nil =>
    intro d outs r h
    simp only [simLoop, Option.some.injEq] at h
    rw [← h]
  | cons t rest ih =>
    intro d outs r h
    simp only [simLoop] at h
    cases hstep : d.step t dt with
    | none => simp only [hstep] at h; exact absurd h (by simp)
    | some d1 =>
      simp only [hstep] at h
      rw [ih d1 _ r h, Diagram.step_reset d d1 t dt hstep]

/-! Lemmas about the constructor validation scan. -/

/-- A term passes the scan exactly when it carries a sign. -/
theorem termError_none_iff (out s : String) :
    termError out s = none ↔ signedTerm s = true := by
  obtain ⟨sd⟩ := s
  cases sd with
  | nil => simp [termError, signedTerm]
  | cons c cs =>
    cases hb : (c = '+' || c = '-') with
    | true => simp [termError, signedTerm, hb]
    | false => simp [termError, signedTerm, hb]

/-- Scanning past clean terms continues with the remainder. -/
theorem junctionError_append (out : String) (ts1 l : List String)
    (h : ∀ s ∈ ts1, termError out s = none) :
    junctionError out (ts1 ++ l) = junctionError out l := by
  induction ts1 with
  | nil => rfl
  | cons s ts ih =>
    simp only [List.cons_append, junctionError]
    rw [h s (by simp)]
    exact ih (fun s1 hs1 => h s1 (by simp [hs1]))

/-- A junction scan is clean exactly when every term is clean. -/
theorem junctionError_none_iff (out : String) (terms : List String) :
    junctionError out terms = none ↔ ∀ s ∈ terms, termError out s = none := by
  induction terms with
  | nil => simp [junctionError]
  | cons s ts ih =>
    simp only [junctionError]
    cases ht : termError out s with
    | some e =>
      constructor
      · intro h; cases h
      · intro h
        have hs := h s (by simp)
        rw [ht] at hs
        cases hs
    | none =>
      rw [ih]
      constructor
      · intro h s1 hs1
        rcases List.mem_cons.mp hs1 with h1 | h1
        · rw [h1]; exact ht
        · exact h s1 h1
      · intro h s1 hs1
        exact h s1 (List.mem_cons_of_mem _ hs1)

/-- Scanning past clean junctions continues with the remainder. -/
theorem sumsError_append (pre l : List (String × List String))
    (h : sumsError pre = none) : sumsError (pre ++ l) = sumsError l := by
  induction pre with
  | nil => rfl
  | cons p pre ih =>
    obtain ⟨o, ts⟩ := p
    simp only [List.cons_append, sumsError] at h ⊢
    cases hj : junctionError o ts with
    | some e => rw [hj] at h; simp at h
    | none => rw [hj] at h; exact ih h

/-- The whole scan is clean exactly when every term of every junction
carries a sign. -/
theorem sumsError_none_iff (sums : List (String × List String)) :
    sumsError sums = none ↔ ∀ p ∈ sums, ∀ s ∈ p.2, signedTerm s = true := by
  induction sums with
  | nil => simp [sumsError]
  | cons p sums ih =>
    obtain ⟨o, ts⟩ := p
    simp only [sumsError]
    cases hj : junctionError o ts with
    | some e =>
      constructor
      · intro h; cases h
      · intro h
        have := (junctionError_none_iff o ts).mpr
          (fun s hs => (termError_none_iff o s).mpr (h (o, ts) (by simp) s hs))
        rw [hj] at this
        cases this
    | none =>
      rw [ih]
      constructor
      · intro h p1 hp1
        rcases List.mem_cons.mp hp1 with h1 | h1
        · subst h1
          intro s hs
          exact (termError_none_iff o s).mp
            ((junctionError_none_iff o ts).mp hj s hs)
        · exact h p1 h1
      · intro h p1 hp1
        exact h p1 (List.mem_cons_of_mem _ hp1)

/-! Concrete instances used to instantiate the theorems. -/

def zeroBlockEx : Block :=
  { name := "Z", inputname := "zin", outputname := "zout", kind := .zero }

def diagEx : Diagram :=
  { blocks := [zeroBlockEx], sums := [], inputs := [], signals := [] }

def diagEx1 : Diagram :=
  { blocks := [zeroBlockEx], sums := [], inputs := [],
    signals := [("zin", 0), ("zout", 0)] }

def outsEx : Outputs := [("zin", [0, 0]), ("zout", [0, 0])]

def dtfEx : DTFState :=
  { dt := 1, y_cos := [1], u_cos := [1], ys := [0], us := [0],
    next_sample := 0, state := 0, output := 0 }

def deadEx0 : DeadtimeState :=
  { delay := 0, x := .scalar 0, y := 0, output := 0, ts := [0], us := [0] }

def deadEx1 : DeadtimeState :=
  { delay := 1, x := .scalar 0, y := 0, output := 0, ts := [0], us := [0] }

def ltiEx : LTIState :=
  { numerator := [1], denominator := [1, 1],
    Gss := { A := [[-1]], B := [1], C := [1], D := 0 },
    delay := none, x := .vec [0], y := 0, output := 0 }

def ctrlManualEx : CtrlState := { lti := ltiEx, automatic := false }

/-! The claims. -/

/-- C1: the claim says a PID constructed with tau_d = 0 succeeds and equals
a PI built from the same Kc and tau_i.  The code instead executes return
PI(...) inside the constructor body, and a Python constructor that returns
a value other than None makes instantiation raise TypeError, so for every
Kc and tau_i the construction fails and no controller is produced - the
code contradicts its own docstring, which promises a plain PI. -/
theorem claimC1_pid_taud_zero_fails (realize : List ℚ → List ℚ → Realization)
    (Kc tau_i alpha_f : ℚ) :
    PIDinit realize Kc tau_i 0 alpha_f =
      .error (.typeError "PID constructor returned a PI instance instead of None") := by
  unfold PIDinit
  rw [if_pos rfl]

/-- C2: a single step evaluates external inputs first, then summing
junctions in definition order, then blocks in list order; each block stores
change_input(t, u) of the table-read u under its output name and then has
its state replaced by old_state + derivative(u) dt, where u is the value
read before change_input and the state fed to derivative is the pre-update
state - the code formulation equals this specification formulation. -/
theorem claimC2_step_phases_and_euler (d : Diagram) (t dt : ℚ) :
    d.step t dt = d.stepSpec t dt := by
  unfold Diagram.step Diagram.stepSpec
  simp only [evalBlocks_eq_spec]

/-- C4: simulate uses the value of the second timestamp itself, not the
difference of the first two, as the fixed step for every tick, and that
value equals the actual spacing exactly when the sequence starts at 0. -/
theorem claimC4_dt_is_second_timestamp (d : Diagram) (t0 t1 : ℚ) (rest : List ℚ) :
    d.simulate (t0 :: t1 :: rest) = simLoop t1 d.reset [] (t0 :: t1 :: rest) ∧
    (t1 = t1 - t0 ↔ t0 = 0) := by
  constructor
  · show (match (t0 :: t1 :: rest)[1]? with
      | none => none
      | some dt => simLoop dt d.reset [] (t0 :: t1 :: rest)) =
        simLoop t1 d.reset [] (t0 :: t1 :: rest)
    rw [List.getElem?_cons_succ, List.getElem?_cons_zero]
  · constructor
    · intro h; linarith
    · intro h; rw [h]; ring

/-- C5: whatever is passed as the automatic argument, including false, a
freshly constructed Controller has automatic = true: the constructor
ignores the parameter, so manual mode cannot be established at
construction. -/
theorem claimC5_controller_automatic_forced (realize : List ℚ → List ℚ → Realization)
    (num den : List ℚ) (delay : ℚ) (automatic : Bool) :
    (CtrlState.init realize num den delay automatic).automatic = true := rfl

/-- C7: every Deadtime change_input(t, u) appends (t, u) to the never-pruned
history, which reset restarts at the single synthetic sample (0, 0); with
delay = 0 the call returns u unchanged and with delay > 0 it returns the
linear interpolation of the accumulated history at t - delay. -/
theorem claimC7_deadtime_history (d : DeadtimeState) (t u : ℚ) :
    (d.change_input t u).2.ts = d.ts ++ [t] ∧
    (d.change_input t u).2.us = d.us ++ [u] ∧
    (d.delay = 0 → (d.change_input t u).1 = u) ∧
    (0 < d.delay →
      (d.change_input t u).1 = interp (t - d.delay) (d.ts ++ [t]) (d.us ++ [u])) ∧
    d.reset.ts = [0] ∧ d.reset.us = [0] := by
  refine ⟨rfl, rfl, ?_, ?_, rfl, rfl⟩
  · intro h0
    show (if d.delay > 0 then interp (t - d.delay) (d.ts ++ [t]) (d.us ++ [u]) else u) = u
    rw [h0]
    norm_num
  · intro hpos
    show (if d.delay > 0 then interp (t - d.delay) (d.ts ++ [t]) (d.us ++ [u]) else u) =
      interp (t - d.delay) (d.ts ++ [t]) (d.us ++ [u])
    rw [if_pos hpos]

/-- C7 witness: a delay-0 block passes the input through while appending,
and a delay-1 block interpolates its history at t - 1. -/
theorem claimC7_witness :
    (DeadtimeState.change_input deadEx0 3 5).1 = 5 ∧
    (DeadtimeState.change_input deadEx1 3 5).1 = interp 2 [0, 3] [0, 5] := by
  constructor
  · exact (claimC7_deadtime_history deadEx0 3 5).2.2.1 rfl
  · have h := (claimC7_deadtime_history deadEx1 3 5).2.2.2.1 (by decide)
    simpa [deadEx1, show (3 : ℚ) - 1 = 2 by norm_num] using h

/-- C8: a Controller whose automatic flag is false returns the held output
from change_input for any t and u and is left completely unchanged. -/
theorem claimC8_manual_hold (c : CtrlState) (t u : ℚ) (h : c.automatic = false) :
    c.change_input t u = (c.lti.output, c) := by
  unfold CtrlState.change_input
  rw [h]
  rfl

/-- C8 witness: a concrete manual-mode controller holds its output. -/
theorem claimC8_witness :
    CtrlState.change_input ctrlManualEx 7 9 = (ctrlManualEx.lti.output, ctrlManualEx) :=
  claimC8_manual_hold ctrlManualEx 7 9 rfl

/-- C3 counterexample: at t equal to next_sample (both 0 at construction of
a pass-through block), the claim mandates a sampling update returning the
fresh input 5, but the code compares strictly, holds the previous output 0
and changes nothing. -/
theorem claimC3_counterexample :
    DTFState.change_input dtfEx 0 5 ≠ DTFState.change_input_claim dtfEx 0 5 := by
  intro h
  have h1 : (DTFState.change_input dtfEx 0 5).2.us =
      (DTFState.change_input_claim dtfEx 0 5).2.us := by rw [h]
  have h2 : (DTFState.change_input dtfEx 0 5).2.us = [0] := rfl
  have h3 : (DTFState.change_input_claim dtfEx 0 5).2.us = [5] := rfl
  rw [h2, h3] at h1
  exact absurd h1 (by decide)

/-- C3 amended: sampling triggers only when t strictly exceeds next_sample.
At or below it the held output is returned and no buffer changes; above it
next_sample advances by dt, both ring buffers shift dropping the oldest
entry, and the new output is the inner product of the stored (reversed)
numerator with the shifted inputs minus the inner product of the stored
(reversed) denominator without its newest slot with the shifted outputs,
divided by the coefficient paired with the newest output slot; the
constructor stores the coefficients reversed, so that divisor is the
leading denominator coefficient. -/
theorem claimC3_discretetf_sampling (s : DTFState) (t u : ℚ) :
    (t ≤ s.next_sample → s.change_input t u = (s.output, s)) ∧
    (s.next_sample < t →
      s.change_input t u =
        ((dot s.u_cos (s.us.drop 1 ++ [u]) - dot s.y_cos.dropLast (s.ys.drop 1)) /
            s.y_cos.getLastD 0,
         { s with
            next_sample := s.next_sample + s.dt,
            us := s.us.drop 1 ++ [u],
            ys := s.ys.drop 1 ++
              [(dot s.u_cos (s.us.drop 1 ++ [u]) -
                dot s.y_cos.dropLast (s.ys.drop 1)) / s.y_cos.getLastD 0],
            output := (dot s.u_cos (s.us.drop 1 ++ [u]) -
              dot s.y_cos.dropLast (s.ys.drop 1)) / s.y_cos.getLastD 0 })) ∧
    (∀ (dt0 : ℚ) (num den : List ℚ) (s0 : DTFState),
      DTFState.init dt0 num den = .ok s0 →
      s0.u_cos = num.reverse ∧ s0.y_cos = den.reverse ∧
        s0.y_cos.getLastD 0 = den.headD 0) := by
  refine ⟨?_, ?_, ?_⟩
  · intro hle
    unfold DTFState.change_input
    rw [if_neg (not_lt.mpr hle)]
  · intro hlt
    unfold DTFState.change_input
    rw [if_pos hlt]
  · intro dt0 num den s0 h0
    cases den with
    | nil => simp [DTFState.init] at h0
    | cons a0 dtl =>
      simp only [DTFState.init] at h0
      by_cases ha : a0 = 0
      · rw [if_pos ha] at h0
        exact Except.noConfusion h0
      · rw [if_neg ha] at h0
        injection h0 with h1
        rw [← h1]
        refine ⟨rfl, rfl, ?_⟩
        rw [List.getLastD_eq_getLast?, List.getLast?_reverse]
        rfl

/-- C3 witness: the pass-through block held at t = 0 and sampled at t = 1,
with its coefficient buffers as stored by the constructor. -/
theorem claimC3_witness :
    DTFState.change_input dtfEx 0 5 = (0, dtfEx) ∧
    DTFState.change_input dtfEx 1 5 =
      (5, { dt := 1, y_cos := [1], u_cos := [1], ys := [5], us := [5],
            next_sample := 1, state := 0, output := 5 }) ∧
    dtfEx.u_cos = [1] ∧ dtfEx.y_cos = [1] := by
  have h1 := (claimC3_discretetf_sampling dtfEx 0 5).1 (by simp [dtfEx])
  have h2 := (claimC3_discretetf_sampling dtfEx 1 5).2.1 (by simp [dtfEx])
  have h3 := (claimC3_discretetf_sampling dtfEx 0 0).2.2 1 [1] [1] dtfEx rfl
  refine ⟨h1.trans rfl, ?_, h3.1, h3.2.1⟩
  rw [h2]
  simp [dtfEx, dot]

/-- C6: calling simulate twice in a row with the same timestamps on the
same diagram instance returns the same output series (and final state)
both times, because simulate starts by resetting every block state, every
delay history and every signal entry. -/
theorem claimC6_simulate_repeatable (d : Diagram) (ts : List ℚ) (outs : Outputs)
    (d1 : Diagram) (h : d.simulate ts = some (outs, d1)) :
    d1.simulate ts = some (outs, d1) := by
  cases hdt : ts[1]? with
  | none =>
    unfold Diagram.simulate at h
    rw [hdt] at h
    exact absurd h (by simp)
  | some dt =>
    unfold Diagram.simulate at h ⊢
    rw [hdt] at h ⊢
    have h2 : simLoop dt d.reset [] ts = some (outs, d1) := h
    have hres : d1.reset = d.reset :=
      (simLoop_reset dt ts d.reset [] (outs, d1) h2).trans (Diagram.reset_idem d)
    show simLoop dt d1.reset [] ts = some (outs, d1)
    rw [hres]
    exact h2

/-- C6 witness: a one-block diagram simulated over two timestamps, then
simulated again from where the first run left it, giving the same series. -/
theorem claimC6_witness :
    Diagram.simulate diagEx1 [0, 1] = some (outsEx, diagEx1) :=
  claimC6_simulate_repeatable diagEx [0, 1] outsEx diagEx1 rfl

/-- C9 counterexample: an empty summing term does not begin with + or -,
yet construction fails with the out-of-range indexing error, not with the
descriptive format error naming the junction and term. -/
theorem claimC9_counterexample :
    Diagram.construct [] [("e", [""])] [] =
      .error (.indexError "string index out of range") ∧
    (Except.error (PyError.indexError "string index out of range") :
        Except PyError Diagram) ≠ .error (.valueError (noSignMsg "e" "")) := by
  refine ⟨rfl, ?_⟩
  intro h
  injection h with h1
  exact PyError.noConfusion h1

/-- C9 amended: construction fails with the TypeError whenever some element
of blocks is not a Block (blocks are checked before sums); once the blocks
check passes, the first ill-formed term in scan order decides the error,
and when that term is nonempty without a leading sign the failure is the
descriptive ValueError naming the junction and the term (an empty
first-offending term instead raises the indexing error of claim C10);
construction succeeds exactly when every element of blocks is a Block and
every term of every junction carries a sign - in particular no check that
the referenced signal names exist anywhere in the diagram. -/
theorem claimC9_construct_validation (blocks : List PyVal)
    (sums : List (String × List String)) (inputs : List (String × (ℚ → ℚ))) :
    (blocks.all PyVal.isBlock = false →
      Diagram.construct blocks sums inputs =
        .error (.typeError "blocks must be a list of blocks")) ∧
    ((∃ d, Diagram.construct blocks sums inputs = .ok d) ↔
      (blocks.all PyVal.isBlock = true ∧
        ∀ p ∈ sums, ∀ s ∈ p.2, signedTerm s = true)) ∧
    (blocks.all PyVal.isBlock = true →
      ∀ (pre : List (String × List String)) (out : String) (ts1 : List String)
        (s : String) (ts2 : List String) (post : List (String × List String)),
        sums = pre ++ (out, ts1 ++ s :: ts2) :: post →
        sumsError pre = none →
        (∀ s1 ∈ ts1, termError out s1 = none) →
        s ≠ "" → signedTerm s = false →
        Diagram.construct blocks sums inputs =
          .error (.valueError (noSignMsg out s))) := by
  refine ⟨?_, ?_, ?_⟩
  · intro hfalse
    unfold Diagram.construct
    rw [hfalse]
    rfl
  · constructor
    · rintro ⟨d, hd⟩
      unfold Diagram.construct at hd
      by_cases hball : blocks.all PyVal.isBlock = true
      · rw [if_pos hball] at hd
        cases hse : sumsError sums with
        | some e => rw [hse] at hd; exact Except.noConfusion hd
        | none => exact ⟨hball, (sumsError_none_iff sums).mp hse⟩
      · rw [if_neg hball] at hd
        exact Except.noConfusion hd
    · rintro ⟨hball, hsigned⟩
      have hok : Diagram.construct blocks sums inputs =
          .ok (Diagram.reset
            (Diagram.mk (blocks.filterMap PyVal.toBlock?) sums inputs [])) := by
        unfold Diagram.construct
        rw [if_pos hball, (sumsError_none_iff sums).mpr hsigned]
      exact ⟨_, hok⟩
  · intro hball pre out ts1 s ts2 post hsums hpre hts1 hne hsign
    have ht : termError out s = some (.valueError (noSignMsg out s)) := by
      obtain ⟨sd⟩ := s
      cases sd with
      | nil => exact absurd (by decide) hne
      | cons c cs =>
        show (if c = '+' || c = '-' then none
          else some (PyError.valueError (noSignMsg out (String.mk (c :: cs))))) = _
        simp [show (c = '+' || c = '-') = false from hsign]
    have hj : junctionError out (s :: ts2) = some (.valueError (noSignMsg out s)) := by
      show (match termError out s with
        | some e => some e
        | none => junctionError out ts2) = _
      rw [ht]
    have hs2 : sumsError sums = some (.valueError (noSignMsg out s)) := by
      rw [hsums, sumsError_append pre _ hpre]
      show (match junctionError out (ts1 ++ s :: ts2) with
        | some e => some e
        | none => sumsError post) = _
      rw [junctionError_append out ts1 _ hts1, hj]
    unfold Diagram.construct
    rw [if_pos hball, hs2]

/-- C9 witness: a non-Block element raises the TypeError, a dangling but
well-signed reference still constructs, and a nonempty signless term after
clean terms raises the descriptive ValueError. -/
theorem claimC9_witness :
    Diagram.construct [PyVal.other "notablock"] [] [] =
      .error (.typeError "blocks must be a list of blocks") ∧
    (∃ d, Diagram.construct [] [("e", ["+dangling"])] [] = .ok d) ∧
    Diagram.construct [] [("e", ["+a", "x"])] [] =
      .error (.valueError (noSignMsg "e" "x")) := by
  refine ⟨(claimC9_construct_validation [PyVal.other "notablock"] [] []).1 rfl, ?_, ?_⟩
  · exact (claimC9_construct_validation [] [("e", ["+dangling"])] []).2.1.mpr
      ⟨rfl, by decide⟩
  · exact (claimC9_construct_validation [] [("e", ["+a", "x"])] []).2.2 rfl
      [] "e" ["+a"] "x" [] [] rfl rfl (by decide) (by decide) (by decide)

/-- C10 counterexample: with a signless nonempty term scanned before the
empty term, construction fails with the descriptive ValueError, not with
the indexing error, although a summing-junction term is the empty string. -/
theorem claimC10_counterexample :
    Diagram.construct [] [("e", ["x", ""])] [] =
      .error (.valueError (noSignMsg "e" "x")) ∧
    (Except.error (PyError.valueError (noSignMsg "e" "x")) :
        Except PyError Diagram) ≠ .error (.indexError "string index out of range") := by
  refine ⟨rfl, ?_⟩
  intro h
  injection h with h1
  exact PyError.noConfusion h1

/-- C10 amended: when the first ill-formed summing term in scan order (all
blocks being Blocks) is the empty string, construction fails with the
out-of-range indexing error from reading its first character, not with the
descriptive format error. -/
theorem claimC10_empty_term_index_error (blocks : List PyVal)
    (sums : List (String × List String)) (inputs : List (String × (ℚ → ℚ)))
    (hball : blocks.all PyVal.isBlock = true)
    (pre : List (String × List String)) (out : String) (ts1 ts2 : List String)
    (post : List (String × List String))
    (hsums : sums = pre ++ (out, ts1 ++ "" :: ts2) :: post)
    (hpre : sumsError pre = none)
    (hts1 : ∀ s1 ∈ ts1, termError out s1 = none) :
    Diagram.construct blocks sums inputs =
      .error (.indexError "string index out of range") := by
  have ht : termError out "" = some (.indexError "string index out of range") := rfl
  have hj : junctionError out ("" :: ts2) = some (.indexError "string index out of range") := by
    show (match termError out "" with
      | some e => some e
      | none => junctionError out ts2) = _
    rw [ht]
  have hs2 : sumsError sums = some (.indexError "string index out of range") := by
    rw [hsums, sumsError_append pre _ hpre]
    show (match junctionError out (ts1 ++ "" :: ts2) with
      | some e => some e
      | none => sumsError post) = _
    rw [junctionError_append out ts1 _ hts1, hj]
  unfold Diagram.construct
  rw [if_pos hball, hs2]

/-- C10 witness: a clean signed term followed by the empty term raises the
indexing error. -/
theorem claimC10_witness :
    Diagram.construct [] [("e", ["+a", ""])] [] =
      .error (.indexError "string index out of range") :=
  claimC10_empty_term_index_error [] _ [] rfl [] "e" ["+a"] [] [] rfl rfl (by decide)

end Blocksim
